import Mathlib

/-!
Verification development for the OnDeck scoreboard server
(`scoreboard_old.py`, `scoreboard.py`, `on_deck/scoreboard.py`).

The Python data is JSON-shaped dictionaries; we embed them as
insertion-ordered association lists of `String × Json`, which matches
Python `dict` semantics for the operations the code uses
(lookup, `d[k] = v` keeps the key's position, new keys append at the end).
-/

namespace OnDeck

/-- JSON values as stored in the game dictionaries.  Numbers are modelled
as integers (the fields the verified code inspects are integral). -/
inductive Json where
  | null : Json
  | bool : Bool → Json
  | num : Int → Json
  | str : String → Json
  | arr : List Json → Json
  | obj : List (String × Json) → Json
deriving Repr

/-- Fields of one game dictionary, in insertion order. -/
abbrev Fields := List (String × Json)

/-- Python `d.get(k)` / `d[k]` read on an insertion-ordered dict. -/
def lookupJ : Fields → String → Option Json
  | [], _ => none
  | (k', v) :: rest, k => if k' = k then some v else lookupJ rest k

/-- Python `d[k] = v` write: replaces the value in place when the key
exists, appends the pair at the end otherwise. -/
def setKey : Fields → String → Json → Fields
  | [], k, v => [(k, v)]
  | (k', v') :: rest, k, v =>
      if k' = k then (k', v) :: rest else (k', v') :: setKey rest k v

/-- Fields of `d.get(k, {})` as used by `recursive_update`: the stored
object's fields when the key holds an object, `{}`'s fields otherwise.
(When the stored value is a non-dict the Python code would raise a
`TypeError` on the subsequent item assignment; that case is unreachable
for the dictionary-shaped updates the server receives.) -/
def objFields (d : Fields) (k : String) : Fields :=
  match lookupJ d k with
  | some (Json.obj fs) => fs
  | _ => []

/-- `recursive_update(d, u)` from `scoreboard_old.py` lines 44-60:
for each key of `u` in order, if its value is a dict merge recursively
into `d.get(k, {})`, otherwise overwrite `d[k]`. -/
def recursiveUpdate : Fields → Fields → Fields
  | d, [] => d
  | d, (k, Json.obj uf) :: rest =>
      recursiveUpdate (setKey d k (Json.obj (recursiveUpdate (objFields d k) uf))) rest
  | d, (k, v) :: rest => recursiveUpdate (setKey d k v) rest
termination_by _ u => sizeOf u
decreasing_by all_goals (simp only [Prod.mk.sizeOf_spec, Json.obj.sizeOf_spec, List.cons.sizeOf_spec]; omega)

/-- True when the value is a JSON object (a Python dict). -/
def isObj : Json → Bool
  | Json.obj _ => true
  | _ => false

/-- The one merge step `recursive_update` performs for a single key of
the update dictionary. -/
def ruStep (d : Fields) (k : String) (v : Json) : Fields :=
  match v with
  | Json.obj uf => setKey d k (Json.obj (recursiveUpdate (objFields d k) uf))
  | v => setKey d k v

theorem recursiveUpdate_nil (d : Fields) : recursiveUpdate d [] = d := by
  simp [recursiveUpdate]

theorem recursiveUpdate_cons (d : Fields) (k : String) (v : Json) (rest : Fields) :
    recursiveUpdate d ((k, v) :: rest) = recursiveUpdate (ruStep d k v) rest := by
  cases v <;> simp [recursiveUpdate, ruStep]

theorem lookupJ_setKey_self (d : Fields) (k : String) (v : Json) :
    lookupJ (setKey d k v) k = some v := by
  induction d with
  | nil => simp [setKey, lookupJ]
  | cons hd rest ih =>
    obtain ⟨k', v'⟩ := hd
    by_cases h : k' = k <;> simp [setKey, lookupJ, h, ih]

theorem lookupJ_setKey_ne (d : Fields) (k' k : String) (v : Json) (h : k' ≠ k) :
    lookupJ (setKey d k' v) k = lookupJ d k := by
  induction d with
  | nil => simp [setKey, lookupJ, h]
  | cons hd rest ih =>
    obtain ⟨k0, v0⟩ := hd
    by_cases h0 : k0 = k'
    · subst h0; simp [setKey, lookupJ, h]
    · by_cases h1 : k0 = k
      · subst h1; simp [setKey, lookupJ, Ne.symm h]
      · simp [setKey, lookupJ, h0, h1, ih]

/-- Keys of an update dictionary. -/
def keysOf (fs : Fields) : List String := fs.map Prod.fst

theorem lookupJ_ruStep_ne (d : Fields) (k' k : String) (v : Json) (h : k' ≠ k) :
    lookupJ (ruStep d k' v) k = lookupJ d k := by
  cases v <;> simp [ruStep, lookupJ_setKey_ne _ _ _ _ h]

theorem lookupJ_recursiveUpdate_notMem (u : Fields) (d : Fields) (k : String)
    (h : k ∉ keysOf u) : lookupJ (recursiveUpdate d u) k = lookupJ d k := by
  induction u generalizing d with
  | nil => simp [recursiveUpdate_nil]
  | cons hd rest ih =>
    obtain ⟨k1, v1⟩ := hd
    simp only [keysOf, List.map_cons, List.mem_cons, not_or] at h
    rw [recursiveUpdate_cons]
    rw [ih _ (by simpa [keysOf] using h.2)]
    exact lookupJ_ruStep_ne _ _ _ _ (Ne.symm h.1)

/-- Well-formedness of an update dictionary: at every level of nesting
the keys of an object are pairwise distinct (always true of a dictionary
decoded from JSON by the server). -/
def fieldsWF : Fields → Bool
  | [] => true
  | (k, v) :: rest =>
      decide (k ∉ rest.map Prod.fst) &&
      (match v with
       | Json.obj uf => fieldsWF uf
       | _ => true) &&
      fieldsWF rest
termination_by fs => sizeOf fs
decreasing_by all_goals (simp only [Prod.mk.sizeOf_spec, Json.obj.sizeOf_spec, List.cons.sizeOf_spec]; omega)

/-- Looking a path of keys up through nested objects. -/
def getPath : Json → List String → Option Json
  | j, [] => some j
  | Json.obj fs, k :: ks =>
      (match lookupJ fs k with
       | some v => getPath v ks
       | none => none)
  | _, _ :: _ => none

/-- A nested key path that an update dictionary does not mention: the
path's head key is either absent from the update, or leads into a nested
update object that leaves the path's tail untouched.  (A path the update
mentions with a scalar value is overwritten, hence touched; the empty
path denotes the whole record, always touched.) -/
def pathUntouched : Fields → List String → Bool
  | _, [] => false
  | u, k :: ks =>
      (match lookupJ u k with
       | none => true
       | some (Json.obj uf) => pathUntouched uf ks
       | some _ => false)

theorem pathUntouched_ne_nil (u : Fields) (p : List String)
    (h : pathUntouched u p = true) : p ≠ [] := by
  intro hp; subst hp; simp [pathUntouched] at h

theorem getPath_obj_nil (ks : List String) (h : ks ≠ []) :
    getPath (Json.obj []) ks = none := by
  cases ks with
  | nil => cases h rfl
  | cons a b => simp [getPath, lookupJ]

theorem getPath_not_obj (v : Json) (hv : isObj v = false) (ks : List String)
    (h : ks ≠ []) : getPath v ks = none := by
  cases ks with
  | nil => cases h rfl
  | cons a b => cases v <;> simp [getPath, isObj] at hv ⊢

/-- Fuel-indexed induction core of `getPath_recursiveUpdate`. -/
theorem getPath_recursiveUpdate_aux : ∀ (n : Nat) (u : Fields), sizeOf u ≤ n →
    ∀ (p : List String) (d : Fields), fieldsWF u = true → pathUntouched u p = true →
    getPath (Json.obj (recursiveUpdate d u)) p = getPath (Json.obj d) p := by
  intro n
  induction n with
  | zero =>
    intro u hu
    exfalso
    cases u <;> simp at hu
  | succ n ih =>
    intro u hu p d hwf hun
    rcases u with _ | ⟨⟨k1, v1⟩, rest⟩
    · rw [recursiveUpdate_nil]
    · rcases p with _ | ⟨k, ks⟩
      · simp [pathUntouched] at hun
      · have hsz : sizeOf v1 ≤ n ∧ sizeOf rest ≤ n := by
          simp only [List.cons.sizeOf_spec, Prod.mk.sizeOf_spec] at hu
          omega
        unfold fieldsWF at hwf
        rw [recursiveUpdate_cons]
        by_cases hk : k1 = k
        · subst hk
          cases v1 with
          | obj uf =>
            simp only [Bool.and_eq_true, decide_eq_true_eq] at hwf
            obtain ⟨⟨hnomem, hufwf⟩, hrestwf⟩ := hwf
            have hun' : pathUntouched uf ks = true := by
              simpa [pathUntouched, lookupJ] using hun
            have hks : ks ≠ [] := pathUntouched_ne_nil uf ks hun'
            have hmem : k1 ∉ keysOf rest := hnomem
            have hstep : lookupJ (recursiveUpdate (ruStep d k1 (Json.obj uf)) rest) k1 =
                some (Json.obj (recursiveUpdate (objFields d k1) uf)) := by
              rw [lookupJ_recursiveUpdate_notMem rest _ k1 hmem]
              simp [ruStep, lookupJ_setKey_self]
            have hih := ih uf
              (by have := hsz.1; simp only [Json.obj.sizeOf_spec] at this; omega)
              ks (objFields d k1) hufwf hun'
            simp only [getPath, hstep]
            rw [hih]
            cases hd : lookupJ d k1 with
            | none => simp [getPath, objFields, hd, getPath_obj_nil ks hks]
            | some w =>
              cases w with
              | obj df => simp [getPath, objFields, hd]
              | null => simp [getPath, objFields, hd, getPath_obj_nil ks hks,
                  getPath_not_obj Json.null rfl ks hks]
              | bool b => simp [getPath, objFields, hd, getPath_obj_nil ks hks,
                  getPath_not_obj (Json.bool b) rfl ks hks]
              | num n => simp [getPath, objFields, hd, getPath_obj_nil ks hks,
                  getPath_not_obj (Json.num n) rfl ks hks]
              | str s => simp [getPath, objFields, hd, getPath_obj_nil ks hks,
                  getPath_not_obj (Json.str s) rfl ks hks]
              | arr xs => simp [getPath, objFields, hd, getPath_obj_nil ks hks,
                  getPath_not_obj (Json.arr xs) rfl ks hks]
          | null => simp [pathUntouched, lookupJ] at hun
          | bool b => simp [pathUntouched, lookupJ] at hun
          | num n => simp [pathUntouched, lookupJ] at hun
          | str s => simp [pathUntouched, lookupJ] at hun
          | arr xs => simp [pathUntouched, lookupJ] at hun
        · simp only [Bool.and_eq_true] at hwf
          have hrestwf := hwf.2
          have hun' : pathUntouched rest (k :: ks) = true := by
            simpa [pathUntouched, lookupJ, hk] using hun
          rw [ih rest hsz.2 (k :: ks) (ruStep d k1 v1) hrestwf hun']
          simp [getPath, lookupJ_ruStep_ne _ _ _ _ hk]

/-- Deep-merge preservation: a nested key path that a well-formed update
dictionary does not mention reads the same value after `recursive_update`
as before. -/
theorem getPath_recursiveUpdate (u : Fields) (p : List String) (d : Fields)
    (hwf : fieldsWF u = true) (hun : pathUntouched u p = true) :
    getPath (Json.obj (recursiveUpdate d u)) p = getPath (Json.obj d) p :=
  getPath_recursiveUpdate_aux (sizeOf u) u le_rfl p d hwf hun

/-- One game slot read, Python `self.games[game_index]` (used at in-range
indices only). -/
def getSlot (games : List Fields) (i : Nat) : Fields := games.getD i []

/-- `MainServer.receive_data` (scoreboard_old.py lines 142-157), state part:
`games[game_index] = recursive_update(games[game_index], new_data)` followed by
`games[game_index]['display_game'] = True`.  (Python raises for an
out-of-range index; here the store is returned unchanged.) -/
def receiveData (games : List Fields) (gameIndex : Nat) (newData : Fields) : List Fields :=
  games.set gameIndex
    (setKey (recursiveUpdate (getSlot games gameIndex) newData) "display_game" (Json.bool true))

/-- A sequence of POST `/{index}` requests applied in submission order. -/
def receiveAll (games : List Fields) (gameIndex : Nat) (updates : List Fields) : List Fields :=
  updates.foldl (fun gs u => receiveData gs gameIndex u) games

/-- The effect of one request on the targeted slot's record. -/
def mergeStep (d : Fields) (u : Fields) : Fields :=
  setKey (recursiveUpdate d u) "display_game" (Json.bool true)

theorem getD_set_self {α : Type} : ∀ (l : List α) (i : Nat) (x d : α),
    i < l.length → (l.set i x).getD i d = x := by
  intro l
  induction l with
  | nil => intro i x d h; simp at h
  | cons hd tl ih =>
    intro i x d h
    cases i with
    | zero => simp [List.set]
    | succ j =>
      simp only [List.set, List.getD, List.getElem?_cons_succ]
      have := ih j x d (by simpa using h)
      simpa [List.getD] using this

theorem getD_set_ne {α : Type} : ∀ (l : List α) (i j : Nat) (x d : α),
    i ≠ j → (l.set i x).getD j d = l.getD j d := by
  intro l
  induction l with
  | nil => intro i j x d _; simp [List.set]
  | cons hd tl ih =>
    intro i j x d h
    cases i with
    | zero =>
      cases j with
      | zero => cases h rfl
      | succ m => simp [List.set, List.getD]
    | succ n =>
      cases j with
      | zero => simp [List.set, List.getD]
      | succ m =>
        simp only [List.set, List.getD, List.getElem?_cons_succ]
        have := ih n m x d (by intro he; exact h (by rw [he]))
        simpa [List.getD] using this

theorem getSlot_receiveData_self (games : List Fields) (i : Nat) (u : Fields)
    (h : i < games.length) :
    getSlot (receiveData games i u) i = mergeStep (getSlot games i) u := by
  unfold getSlot receiveData mergeStep
  exact getD_set_self _ _ _ _ h

theorem length_receiveData (games : List Fields) (i : Nat) (u : Fields) :
    (receiveData games i u).length = games.length := by
  simp [receiveData]

/-- The slot after a sequence of requests is the fold of the one-request
effect over the updates in submission order. -/
theorem getSlot_receiveAll (games : List Fields) (i : Nat) (updates : List Fields)
    (h : i < games.length) :
    getSlot (receiveAll games i updates) i = updates.foldl mergeStep (getSlot games i) := by
  induction updates generalizing games with
  | nil => simp [receiveAll]
  | cons u us ih =>
    have h' : i < (receiveData games i u).length := by
      rw [length_receiveData]; exact h
    calc getSlot (receiveAll games i (u :: us)) i
        = getSlot (receiveAll (receiveData games i u) i us) i := by simp [receiveAll]
      _ = us.foldl mergeStep (getSlot (receiveData games i u) i) := ih _ h'
      _ = us.foldl mergeStep (mergeStep (getSlot games i) u) := by
            rw [getSlot_receiveData_self _ _ _ h]
      _ = (u :: us).foldl mergeStep (getSlot games i) := by simp

theorem lookupJ_mergeStep_flag (d u : Fields) :
    lookupJ (mergeStep d u) "display_game" = some (Json.bool true) :=
  lookupJ_setKey_self _ _ _

theorem foldl_mergeStep_flag : ∀ (us : List Fields) (d : Fields), us ≠ [] →
    lookupJ (us.foldl mergeStep d) "display_game" = some (Json.bool true) := by
  intro us
  induction us with
  | nil => intro d h; cases h rfl
  | cons u us ih =>
    intro d _
    cases us with
    | nil => simpa using lookupJ_mergeStep_flag d u
    | cons u2 us2 => simpa using ih (mergeStep d u) (by simp)

/-- C2: for every in-range slot index and every sequence of partial JSON
updates merged into that slot via POST `/{index}`, the resulting record is
the deep merge of the partials applied in submission order ((1): the slot
equals the fold of one-request merges); a key holding a structured object
merges recursively (2); a scalar or array value overwrites (3); merging
the empty object `{}` changes no field (4); nested keys a (well-formed)
partial does not mention keep their prior values (5); and each merge sets
the slot's `display_game` flag to `True` (6). -/
theorem claim_C2_deep_merge (games : List Fields) (i : Nat) (hi : i < games.length)
    (updates : List Fields) :
    getSlot (receiveAll games i updates) i = updates.foldl mergeStep (getSlot games i)
    ∧ (∀ (d : Fields) (k : String) (uf : Fields),
        recursiveUpdate d [(k, Json.obj uf)] =
          setKey d k (Json.obj (recursiveUpdate (objFields d k) uf)))
    ∧ (∀ (d : Fields) (k : String) (v : Json), isObj v = false →
        recursiveUpdate d [(k, v)] = setKey d k v)
    ∧ (∀ d : Fields, recursiveUpdate d [] = d)
    ∧ (∀ (d u : Fields) (p : List String), fieldsWF u = true → pathUntouched u p = true →
        getPath (Json.obj (recursiveUpdate d u)) p = getPath (Json.obj d) p)
    ∧ (∀ d u : Fields, lookupJ (mergeStep d u) "display_game" = some (Json.bool true))
    ∧ (updates ≠ [] →
        lookupJ (getSlot (receiveAll games i updates) i) "display_game" =
          some (Json.bool true)) := by
  refine ⟨getSlot_receiveAll games i updates hi, ?_, ?_, recursiveUpdate_nil,
    fun d u p hwf hun => getPath_recursiveUpdate u p d hwf hun,
    fun d u => lookupJ_mergeStep_flag d u, ?_⟩
  · intro d k uf
    rw [recursiveUpdate_cons, recursiveUpdate_nil, ruStep]
  · intro d k v hv
    rw [recursiveUpdate_cons, recursiveUpdate_nil]
    cases v <;> simp [isObj] at hv ⊢ <;> rfl
  · intro hne
    rw [getSlot_receiveAll games i updates hi]
    exact foldl_mergeStep_flag updates (getSlot games i) hne

/-- Witness for C2 at a concrete store: one slot holding
`{count: {balls: 1, outs: 2}}`, one update `{count: {outs: 3}}`; the
untouched nested key `count.balls` keeps its value and the flag is set. -/
theorem claim_C2_deep_merge_witness :
    getSlot (receiveAll [[("count", Json.obj [("balls", Json.num 1), ("outs", Json.num 2)])]]
        0 [[("count", Json.obj [("outs", Json.num 3)])]]) 0 =
      List.foldl mergeStep [("count", Json.obj [("balls", Json.num 1), ("outs", Json.num 2)])]
        [[("count", Json.obj [("outs", Json.num 3)])]]
    ∧ getPath (Json.obj (recursiveUpdate
        [("count", Json.obj [("balls", Json.num 1), ("outs", Json.num 2)])]
        [("count", Json.obj [("outs", Json.num 3)])])) ["count", "balls"] =
      getPath (Json.obj [("count", Json.obj [("balls", Json.num 1), ("outs", Json.num 2)])])
        ["count", "balls"]
    ∧ lookupJ (getSlot (receiveAll
        [[("count", Json.obj [("balls", Json.num 1), ("outs", Json.num 2)])]]
        0 [[("count", Json.obj [("outs", Json.num 3)])]]) 0) "display_game" =
      some (Json.bool true) := by
  have h := claim_C2_deep_merge
    [[("count", Json.obj [("balls", Json.num 1), ("outs", Json.num 2)])]] 0
    (by decide) [[("count", Json.obj [("outs", Json.num 3)])]]
  refine ⟨h.1, ?_, h.2.2.2.2.2.2 (by simp)⟩
  exact h.2.2.2.2.1 _ _ ["count", "balls"] (by simp [fieldsWF]) (by decide)

/-- The four scoreboard display modes (`Scoreboard._acceptable_modes`). -/
inductive Mode where
  | basic : Mode
  | dual : Mode
  | detailed : Mode
  | gamecast : Mode
deriving Repr, DecidableEq

/-- One slot's `display_game` test as `AllGames._count_games` performs it
(`if game['display_game'] is True`). -/
def isDisplayed (g : Fields) : Bool :=
  match lookupJ g "display_game" with
  | some (Json.bool true) => true
  | _ => false

/-- `AllGames._count_games` (scoreboard_old.py lines 699-706): counts the
slots whose `display_game` field is `True`. -/
def countGames (games : List Fields) : Nat :=
  games.foldl (fun c g => if isDisplayed g then c + 1 else c) 0

/-- `self.num_pages = math.ceil(self._count_games() / 5)` in `AllGames.loop`
(scoreboard_old.py line 716); for a natural count, `math.ceil(c / 5)` is
`(c + 4) / 5` in integer arithmetic. -/
def numPages (games : List Fields) : Nat := (countGames games + 4) / 5

/-- Modelled from the spec's words (page size per mode, for comparison):
capacity 10 in DUAL mode, 5 in BASIC, DETAILED, GAMECAST. -/
def specCapacity : Mode → Nat
  | Mode.dual => 10
  | _ => 5

/-- Modelled from the spec's words (for comparison):
`pageCount = ceil(countVisible / capacity)`, minimum 1. -/
def specPageCount (countVisible : Nat) (m : Mode) : Nat :=
  max 1 ((countVisible + specCapacity m - 1) / specCapacity m)

/-- A 20-slot store whose first 12 slots are visible. -/
def games12 : List Fields :=
  List.replicate 12 [("display_game", Json.bool true)] ++
    List.replicate 8 [("display_game", Json.bool false)]

/-- C1 is false on the code: with 12 visible slots the loop computes
`ceil(12 / 5) = 3` pages in DUAL mode, not `ceil(12 / 10) = 2` as the claim
states — the page-count computation never consults the mode. -/
theorem claim_C1_counterexample :
    countGames games12 = 12 ∧
    numPages games12 ≠ specPageCount (countGames games12) Mode.dual := by
  decide

/-- C1 (amended): for every store, the page count computed by
`AllGames.loop` equals `ceil(countVisible / 5)` in every mode — the least
number of 5-slot pages covering the visible count — with no minimum of one
(zero visible slots give zero pages); in particular 12 visible slots give
3 pages, also in DUAL mode. -/
theorem claim_C1_page_count (games : List Fields) :
    countGames games ≤ 5 * numPages games
    ∧ (∀ m : Nat, countGames games ≤ 5 * m → numPages games ≤ m)
    ∧ (countGames games = 0 → numPages games = 0)
    ∧ numPages games12 = 3 := by
  refine ⟨?_, fun m hm => ?_, fun h0 => ?_, by decide⟩ <;> unfold numPages <;> omega

/-- Witness for C1 (amended) at the 12-visible store: its visible count is
covered by its page count, three pages suffice, and the empty store has
zero pages. -/
theorem claim_C1_page_count_witness :
    countGames games12 ≤ 5 * numPages games12
    ∧ numPages games12 ≤ 3
    ∧ numPages [] = 0 := by
  refine ⟨(claim_C1_page_count games12).1, ?_, ?_⟩
  · exact (claim_C1_page_count games12).2.1 3 (by decide)
  · exact (claim_C1_page_count []).2.2.1 (by decide)

/-- The padded list `print_page` builds before rotating
(scoreboard_old.py lines 676-682): `shifted_games = [None] * max_games`
with its first entries filled from `self.games[:max_games]` in index
order, where `max_games = 5 * num_pages`. -/
def pageBase {α : Type} (games : List α) (numPages : Nat) : List (Option α) :=
  (games.take (5 * numPages)).map some ++
    List.replicate (5 * numPages - (games.take (5 * numPages)).length) none

/-- `AllGames.print_page` page construction (scoreboard_old.py lines
669-697): rotate the padded list left by `page_num * 5`
(`shifted_games[shift_offset:] + shifted_games[:shift_offset]`) and keep
the first 10 entries in DUAL mode, 5 otherwise; entry `i` of the result is
drawn in box `i` (a `None` entry or a slot with `display_game = False`
draws an empty box). -/
def printPageList {α : Type} (games : List α) (numPages pageNum : Nat) (mode : Mode) :
    List (Option α) :=
  let shiftOffset := pageNum * 5
  let shifted := (pageBase games numPages).drop shiftOffset ++
    (pageBase games numPages).take shiftOffset
  if mode = Mode.dual then shifted.take 10 else shifted.take 5

/-- Modelled from the spec's words (for comparison): list exactly the
visible slots in index order, pad with empties to `pageCount * capacity`,
left-rotate by `pageIndex * capacity`, take the first `capacity` entries. -/
def specPageList {α : Type} (visibleSlots : List α) (pageCount pageNum : Nat) (m : Mode) :
    List (Option α) :=
  let capacity := specCapacity m
  let padded := visibleSlots.map some ++
    List.replicate (pageCount * capacity - visibleSlots.length) none
  let r := pageNum * capacity
  ((padded.drop r ++ padded.take r)).take capacity

/-- C3 is false on the code: with a 20-slot store whose visible slots are
0..11, in DUAL mode, the claim says page 1 shows visible slots 10 and 11
followed by 8 empty boxes; the code (3 pages, rotation by `page * 5`,
all slots included) shows slots 5..14. -/
theorem claim_C3_counterexample :
    printPageList (List.range 20) (numPages games12) 1 Mode.dual ≠
      specPageList (List.range 12) (specPageCount (countGames games12) Mode.dual) 1 Mode.dual := by
  decide

theorem pageBase_length {α : Type} (games : List α) (n : Nat) :
    (pageBase games n).length = 5 * n := by
  simp only [pageBase, List.length_append, List.length_map, List.length_replicate,
    List.length_take]
  omega

/-- C3 (amended): for every store, page index and mode, the page handed to
the renderer is the first `5 * num_pages` slots of the store in index order
(visible or not), padded with empty entries up to length `5 * num_pages`,
left-rotated with wrap-around by `page_num * 5` (not by
`page * capacity`), truncated to the first 10 entries in DUAL mode and 5
otherwise; empty entries and slots with `display_game = False` render as
empty boxes.  Concretely, for the store 0..19 with 12 visible slots in
DUAL mode the code computes 3 pages: page 0 shows slots 0..9 and page 1
shows slots 5..14. -/
theorem claim_C3_page_rotation {α : Type} (games : List α) (n p : Nat) (m : Mode)
    (hp : p * 5 ≤ 5 * n) :
    printPageList games n p m =
      ((pageBase games n).rotate (p * 5)).take (if m = Mode.dual then 10 else 5)
    ∧ (pageBase games n).length = 5 * n
    ∧ printPageList (List.range 20) (numPages games12) 0 Mode.dual =
        (List.range 10).map some
    ∧ printPageList (List.range 20) (numPages games12) 1 Mode.dual =
        ((List.range 15).drop 5).map some := by
  refine ⟨?_, pageBase_length games n, by decide, by decide⟩
  have hlen : p * 5 ≤ (pageBase games n).length := by rw [pageBase_length]; exact hp
  rw [List.rotate_eq_drop_append_take hlen]
  simp only [printPageList]
  cases m <;> simp

/-- Witness for C3 (amended): the rotation characterisation evaluated on
the concrete 20-slot store at page 1 in DUAL mode. -/
theorem claim_C3_page_rotation_witness :
    printPageList (List.range 20) 3 1 Mode.dual =
      ((pageBase (List.range 20) 3).rotate (1 * 5)).take
        (if Mode.dual = Mode.dual then 10 else 5) :=
  (claim_C3_page_rotation (List.range 20) 3 1 Mode.dual (by decide)).1

/-- `AllGames.loop` cycle decision (scoreboard_old.py lines 718-725):
`a = (num_pages <= 2) and (mode == 'dual')`,
`b = (num_pages <= 1) and (mode == 'basic')`, `cycle_pages = not (a or b)`;
when `cycle_pages` is false the loop returns without rendering any page. -/
def cyclePages (numPages : Nat) (mode : Mode) : Bool :=
  let a := decide (numPages ≤ 2) && decide (mode = Mode.dual)
  let b := decide (numPages ≤ 1) && decide (mode = Mode.basic)
  !(a || b)

/-- Modelled from the spec's words (for comparison): skip the rotation
cycle when all visible games already fit on screen — one page in the
single-column modes BASIC, DETAILED, GAMECAST, two pages in DUAL. -/
def specSkipCycle (pageCount : Nat) (m : Mode) : Bool :=
  (decide (pageCount ≤ 1) &&
    (decide (m = Mode.basic) || decide (m = Mode.detailed) || decide (m = Mode.gamecast))) ||
  (decide (pageCount ≤ 2) && decide (m = Mode.dual))

/-- C4 is false on the code: in DETAILED mode with a single page the claim
says the rotation cycle is skipped, but the code's skip test only covers
BASIC and DUAL — it still cycles. -/
theorem claim_C4_counterexample :
    cyclePages 1 Mode.detailed = true ∧ specSkipCycle 1 Mode.detailed = true := by
  decide

/-- C4 (amended): the render loop skips the page-rotation cycle exactly
when `pageCount ≤ 1` in BASIC mode or `pageCount ≤ 2` in DUAL mode;
DETAILED and GAMECAST modes never skip, whatever the page count. -/
theorem claim_C4_skip_cycle (n : Nat) (m : Mode) :
    cyclePages n m = false ↔ ((n ≤ 1 ∧ m = Mode.basic) ∨ (n ≤ 2 ∧ m = Mode.dual)) := by
  cases m <;> simp [cyclePages]

/-- `MainServer.print_game_if_on_page` (scoreboard_old.py lines 177-197):
`shifted_game_index = game_index - page * 5` as a signed Python integer;
in BASIC/DETAILED/GAMECAST the function returns False without drawing when
`shifted_game_index > 4`, in DUAL when `shifted_game_index > 9`; in every
other case it redraws box `shifted_game_index` for that game, swaps the
display buffer and returns True. -/
def printGameIfOnPage (mode : Mode) (page gameIndex : Nat) : Bool :=
  let shifted : Int := (gameIndex : Int) - (page : Int) * 5
  if (mode = Mode.basic ∨ mode = Mode.detailed ∨ mode = Mode.gamecast) ∧ shifted > 4 then
    false
  else if mode = Mode.dual ∧ shifted > 9 then
    false
  else
    true

/-- Modelled from the spec's words (for comparison): the slot index falls
within the rotated window of the currently displayed page — the positions
`(page * capacity + j) mod (pageCount * capacity)` for `j < capacity`. -/
def specOnPage (mode : Mode) (pageCount page gameIndex : Nat) : Bool :=
  (List.range (specCapacity mode)).any
    (fun j => decide (gameIndex = (page * specCapacity mode + j) % (pageCount * specCapacity mode)))

/-- C5 is false on the code: in BASIC mode with 2 pages, while page 1
(slots 5..9) is displayed, slot 0 lies outside the displayed window, so
the claim says the completed merge defers with no draw; the code computes
`shifted_game_index = -5 ≤ 4`, redraws (at an off-canvas negative row
offset) and flips the buffer, returning True. -/
theorem claim_C5_counterexample :
    printGameIfOnPage Mode.basic 1 0 = true ∧ specOnPage Mode.basic 2 1 0 = false := by
  decide

/-- C5 (amended): after a completed merge into slot `i` the reconciler
redraws that single game and flips the display buffer iff
`i - page * 5 ≤ 4` in BASIC/DETAILED/GAMECAST resp. `≤ 9` in DUAL, where
the difference is a signed integer: every slot *before* the displayed
window is also redrawn (at an off-canvas negative offset) rather than
deferred, the window starts at `page * 5` even in DUAL mode, and no
wrap-around is applied; only slots beyond the window's end are left to the
next scheduled page tick. -/
theorem claim_C5_window (mode : Mode) (page gameIndex : Nat) :
    printGameIfOnPage mode page gameIndex = true ↔
      (gameIndex : Int) - (page : Int) * 5 ≤ (if mode = Mode.dual then 9 else 4) := by
  cases mode <;> simp only [printGameIfOnPage] <;> split <;>
    simp_all <;> omega

/-- Render-loop mode state: the committed display mode `Scoreboard.mode`
and the pending requested mode `Scoreboard._new_mode`. -/
structure SbState where
  mode : Mode
  newMode : Mode
deriving Repr, DecidableEq

/-- One iteration of the `while True` loop of `Scoreboard.start`
(scoreboard_old.py lines 969-979, identically on_deck/scoreboard.py lines
110-127): the whole page cycle (`all_games.loop`) runs with the mode read
at entry; only after it returns is the pending mode compared, committed,
and one full-canvas `clear_section(0, 0, 384, 256)` performed on change.
Returns (mode the cycle rendered with, number of full clears, next state). -/
def startIter (s : SbState) : Mode × Nat × SbState :=
  let renderedMode := s.mode
  if s.mode ≠ s.newMode then
    (renderedMode, 1, { mode := s.newMode, newMode := s.newMode })
  else
    (renderedMode, 0, s)

/-- C6: the committed mode never changes in the middle of a page cycle —
each cycle renders with the mode held at its start; the pending mode takes
effect exactly at the cycle boundary, and when it differs from the current
mode the boundary performs exactly one full-canvas clear (zero
otherwise). -/
theorem claim_C6_mode_commit (s : SbState) :
    (startIter s).1 = s.mode
    ∧ (startIter s).2.2.mode = s.newMode
    ∧ (startIter s).2.2.newMode = s.newMode
    ∧ (startIter s).2.1 = (if s.mode = s.newMode then 0 else 1) := by
  by_cases h : s.mode = s.newMode <;> simp [startIter, h]

/-- The accepted mode strings, `Scoreboard._acceptable_modes`
(scoreboard_old.py line 939). -/
def acceptableModes : List String := ["basic", "dual", "detailed", "gamecast"]

/-- Outcome of the `new_mode` property setter. -/
inductive SetModeResult where
  | assigned : SetModeResult
  | noop : SetModeResult
  | invalid : SetModeResult
deriving Repr, DecidableEq

/-- `Scoreboard.new_mode` setter (scoreboard_old.py lines 960-967): `None`
returns without assigning; a value outside `_acceptable_modes` raises
`ValueError` leaving `_new_mode` unchanged; any accepted value is stored.
Returns the outcome and the pending mode afterwards. -/
def newModeSet (pending : String) (value : Option String) : SetModeResult × String :=
  match value with
  | none => (SetModeResult.noop, pending)
  | some v =>
      if v ∈ acceptableModes then (SetModeResult.assigned, v)
      else (SetModeResult.invalid, pending)

/-- Response body of `MainServer.settings`. -/
inductive SettingsBody where
  | modes : String → String → SettingsBody
  | message : String → SettingsBody
deriving Repr, DecidableEq

/-- `MainServer.settings` (scoreboard_old.py lines 109-140): with neither
`mode` nor `id` present it reports the current and pending modes;
otherwise it runs the `new_mode` setter (a `ValueError` is caught and
reported as a JSON message with HTTP 200) and then parses `id` for the
gamecast pin (`some none` stands for a present but unparseable id, on
which `int(gameid)` raises).  Returns (body, HTTP status, pending mode
afterwards, gamecast game id afterwards). -/
def settingsHandler (curMode pending : String) (gamecastId : Int)
    (mode : Option String) (gameid : Option (Option Int)) :
    SettingsBody × Nat × String × Int :=
  if mode = none ∧ gameid = none then
    (SettingsBody.modes curMode pending, 200, pending, gamecastId)
  else
    match newModeSet pending mode, mode with
    | (SetModeResult.invalid, _), some v =>
        (SettingsBody.message s!"Mode {v} not recognized", 200, pending, gamecastId)
    | (SetModeResult.invalid, _), none =>
        (SettingsBody.message "Mode None not recognized", 200, pending, gamecastId)
    | (_, pending2), _ =>
        match gameid with
        | some none =>
            (SettingsBody.message "Game ID not recognized", 200, pending2, gamecastId)
        | some (some n) => (SettingsBody.modes curMode pending2, 200, pending2, n)
        | none => (SettingsBody.modes curMode pending2, 200, pending2, gamecastId)

/-- C7: requesting a mode outside {basic, dual, detailed, gamecast} fails
with `ValueError` and leaves the pending mode unchanged; requesting mode
`None` is a no-op; and `GET /settings` with an invalid mode string answers
with a descriptive JSON message and HTTP status 200 while the prior
pending mode stays untouched. -/
theorem claim_C7_mode_validation (pending : String) :
    (∀ v : String, v ∉ acceptableModes →
        newModeSet pending (some v) = (SetModeResult.invalid, pending))
    ∧ newModeSet pending none = (SetModeResult.noop, pending)
    ∧ (∀ (curMode : String) (gid : Int) (v : String), v ∉ acceptableModes →
        settingsHandler curMode pending gid (some v) none =
          (SettingsBody.message s!"Mode {v} not recognized", 200, pending, gid)) := by
  refine ⟨fun v hv => ?_, rfl, fun curMode gid v hv => ?_⟩
  · simp [newModeSet, hv]
  · simp [settingsHandler, newModeSet, hv]

/-- Witness for C7 with the invalid mode string "bogus". -/
theorem claim_C7_mode_validation_witness :
    newModeSet "dual" (some "bogus") = (SetModeResult.invalid, "dual")
    ∧ settingsHandler "basic" "dual" (-1) (some "bogus") none =
        (SettingsBody.message "Mode bogus not recognized", 200, "dual", -1) := by
  have h := claim_C7_mode_validation "dual"
  exact ⟨h.1 "bogus" (by decide), h.2.2 "basic" (-1) "bogus" (by decide)⟩

/-- `MainServer.reset_games` (scoreboard_old.py lines 91-107): sets
`display_game = False` on every slot of the store and on the gamecast
record, clears the ten on-screen boxes, swaps the frame, and answers
`{'message': 'Games reset'}` with HTTP 200.  Returns (slots afterwards,
gamecast record afterwards, message, status). -/
def resetGames (games : List Fields) (gamecastGame : Fields) :
    List Fields × Fields × String × Nat :=
  (games.map (fun g => setKey g "display_game" (Json.bool false)),
   setKey gamecastGame "display_game" (Json.bool false),
   "Games reset", 200)

theorem getD_map_lt {α : Type} : ∀ (l : List α) (f : α → α) (i : Nat) (d d' : α),
    i < l.length → (l.map f).getD i d = f (l.getD i d') := by
  intro l
  induction l with
  | nil => intro f i d d' h; simp at h
  | cons hd tl ih =>
    intro f i d d' h
    cases i with
    | zero => simp [List.getD]
    | succ j =>
      simp only [List.map_cons, List.getD, List.getElem?_cons_succ]
      have := ih f j d d' (by simpa using h)
      simpa [List.getD] using this

theorem getD_ge {α : Type} : ∀ (l : List α) (i : Nat) (d : α),
    l.length ≤ i → l.getD i d = d := by
  intro l i d h
  simp [List.getD, List.getElem?_eq_none h]

/-- C8: resetAll sets the `display_game` flag to `False` on every one of
the store's slots and on the gamecast record, leaves every other field of
every record unchanged, and responds with message "Games reset" and
HTTP 200. -/
theorem claim_C8_reset (games : List Fields) (gc : Fields) :
    (resetGames games gc).1.length = games.length
    ∧ (∀ i, i < games.length →
        lookupJ (getSlot (resetGames games gc).1 i) "display_game" = some (Json.bool false))
    ∧ (∀ (i : Nat) (k : String), k ≠ "display_game" →
        lookupJ (getSlot (resetGames games gc).1 i) k = lookupJ (getSlot games i) k)
    ∧ lookupJ (resetGames games gc).2.1 "display_game" = some (Json.bool false)
    ∧ (∀ k : String, k ≠ "display_game" →
        lookupJ (resetGames games gc).2.1 k = lookupJ gc k)
    ∧ (resetGames games gc).2.2.1 = "Games reset"
    ∧ (resetGames games gc).2.2.2 = 200 := by
  refine ⟨by simp [resetGames], fun i hi => ?_, fun i k hk => ?_,
    lookupJ_setKey_self _ _ _, fun k hk => lookupJ_setKey_ne _ _ _ _ (Ne.symm hk),
    rfl, rfl⟩
  · unfold getSlot resetGames
    rw [getD_map_lt games _ i [] [] hi]
    exact lookupJ_setKey_self _ _ _
  · by_cases hi : i < games.length
    · unfold getSlot resetGames
      rw [getD_map_lt games _ i [] [] hi]
      exact lookupJ_setKey_ne _ _ _ _ (Ne.symm hk)
    · unfold getSlot resetGames
      rw [getD_ge _ i [] (by simpa using Nat.le_of_not_lt hi),
        getD_ge _ i [] (Nat.le_of_not_lt hi)]

/-- Witness for C8 on a one-slot store carrying a score field: the flag is
cleared on the slot and the gamecast record while the score field
survives. -/
theorem claim_C8_reset_witness :
    lookupJ (getSlot (resetGames [[("display_game", Json.bool true),
        ("away_score", Json.num 4)]] [("display_game", Json.bool true)]).1 0)
      "display_game" = some (Json.bool false)
    ∧ lookupJ (getSlot (resetGames [[("display_game", Json.bool true),
        ("away_score", Json.num 4)]] [("display_game", Json.bool true)]).1 0)
      "away_score" = lookupJ (getSlot [[("display_game", Json.bool true),
        ("away_score", Json.num 4)]] 0) "away_score" := by
  have h := claim_C8_reset [[("display_game", Json.bool true), ("away_score", Json.num 4)]]
    [("display_game", Json.bool true)]
  exact ⟨h.2.1 0 (by decide), h.2.2.1 0 "away_score" (by decide)⟩

/-- `AllGames._print_batter_pitcher` (scoreboard_old.py lines 469-495):
the two detail lines drawn for a LIVE game in detailed mode, returned as
(top line `line_a`, bottom line `line_c`).  `is_top_inning` is
`inning_state == 'T'`, flipped when `count.outs == 3` because after the
third out the feed already describes the next half inning's matchup. -/
def printBatterPitcher (inningState : String) (outs : Option Int)
    (batter batterSummary pitcher pitcherSummary : String) : String × String :=
  let isTopInning := inningState == "T"
  let isTopInning := if outs == some 3 then !isTopInning else isTopInning
  if isTopInning then
    (s!"B:{batter} ({batterSummary})", s!"P:{pitcher} ({pitcherSummary})")
  else
    (s!"P:{pitcher} ({pitcherSummary})", s!"B:{batter} ({batterSummary})")

/-- C9: for a LIVE game with `count.outs = 3` the detailed renderer draws
the batter/pitcher pairing of the half-inning opposite to `inning_state`;
for any other outs value the pairing follows `inning_state` directly — top
of inning puts the batter line on top and the pitcher line below, bottom
of inning the other way around. -/
theorem claim_C9_outs_flip (outs : Option Int) (b bs p ps : String) :
    (outs ≠ some 3 →
      printBatterPitcher "T" outs b bs p ps = (s!"B:{b} ({bs})", s!"P:{p} ({ps})")
      ∧ printBatterPitcher "B" outs b bs p ps = (s!"P:{p} ({ps})", s!"B:{b} ({bs})"))
    ∧ (outs = some 3 →
      printBatterPitcher "T" outs b bs p ps = (s!"P:{p} ({ps})", s!"B:{b} ({bs})")
      ∧ printBatterPitcher "B" outs b bs p ps = (s!"B:{b} ({bs})", s!"P:{p} ({ps})")) := by
  constructor
  · intro h
    have hb : (outs == some 3) = false := by simpa using h
    constructor <;> simp [printBatterPitcher, hb]
  · intro h
    subst h
    constructor <;> simp [printBatterPitcher]

/-- Witness for C9: with three outs in the top of the inning the pitcher
line is on top; with no outs recorded the batter line is on top. -/
theorem claim_C9_outs_flip_witness :
    printBatterPitcher "T" (some 3) "Judge" "1-2" "Cole" "5 K" =
      ("P:Cole (5 K)", "B:Judge (1-2)")
    ∧ printBatterPitcher "T" none "Judge" "1-2" "Cole" "5 K" =
      ("B:Judge (1-2)", "P:Cole (5 K)") := by
  have h3 := claim_C9_outs_flip (some 3) "Judge" "1-2" "Cole" "5 K"
  have hn := claim_C9_outs_flip none "Judge" "1-2" "Cole" "5 K"
  exact ⟨(h3.2 rfl).1, (hn.1 (by simp)).1⟩

/-- The decision lines drawn for a FINAL game in detailed mode.  `lineA`
and `lineC` carry the vertical offset they are drawn at relative to the
box's row (`row_offset + delta_y` resp. `row_offset - delta_y`). -/
structure DecisionLines where
  lineA : Option (String × Int)
  lineB : Option String
  lineC : Option (String × Int)
deriving Repr, DecidableEq

/-- `AllGames._print_pitcher_decisions` (scoreboard_old.py lines 497-542):
when the away side has more runs the top line is the winning pitcher and
the bottom line the losing pitcher, and conversely when the home side has
more runs; in both cases a middle save line appears when
`decisions.save` is set; on a tied score no line is assigned at all.
`delta_y` is 0 when the save line is present and `two_line_offset = 7`
otherwise, spreading the two remaining lines apart. -/
def printPitcherDecisions (awayScore homeScore : Int) (win loss : String)
    (save : Option String) (winSummary lossSummary saveSummary : String) : DecisionLines :=
  let svLine : Option String := save.map (fun sv => s!"SV:{sv} ({saveSummary})")
  let abc : Option String × Option String × Option String :=
    if awayScore > homeScore then
      (some s!"WP:{win} ({winSummary})", svLine, some s!"LP:{loss} ({lossSummary})")
    else if homeScore > awayScore then
      (some s!"LP:{loss} ({lossSummary})", svLine, some s!"WP:{win} ({winSummary})")
    else
      (none, none, none)
  let deltaY : Int := if abc.2.1 ≠ none then 0 else 7
  { lineA := abc.1.map (fun s => (s, deltaY)),
    lineB := abc.2.1,
    lineC := abc.2.2.map (fun s => (s, -deltaY)) }

/-- C10: a FINAL game rendered in detailed mode with a tied score draws no
win/loss/save decision lines at all; decision lines appear exactly when
one run total strictly exceeds the other; the save line appears exactly
when the save field is set (and a decision is drawn); and when the save
line is absent the win and loss lines are spread apart by the fixed
vertical offset 7. -/
theorem claim_C10_tied_final (a h : Int) (win loss : String) (save : Option String)
    (ws ls ss : String) :
    (a = h → printPitcherDecisions a h win loss save ws ls ss =
      { lineA := none, lineB := none, lineC := none })
    ∧ ((printPitcherDecisions a h win loss save ws ls ss).lineA ≠ none ↔ a ≠ h)
    ∧ ((printPitcherDecisions a h win loss save ws ls ss).lineC ≠ none ↔ a ≠ h)
    ∧ ((printPitcherDecisions a h win loss save ws ls ss).lineB ≠ none ↔
        (save ≠ none ∧ a ≠ h))
    ∧ (save = none → a ≠ h →
        (printPitcherDecisions a h win loss save ws ls ss).lineA.map Prod.snd = some 7
        ∧ (printPitcherDecisions a h win loss save ws ls ss).lineC.map Prod.snd = some (-7)) := by
  rcases lt_trichotomy a h with hlt | heq | hgt
  · have h1 : ¬ a > h := by omega
    have h2 : h > a := hlt
    cases save <;>
      simp [printPitcherDecisions, h1, h2, Int.ne_of_lt hlt]
  · subst heq
    have h1 : ¬ a > a := by omega
    cases save <;> simp [printPitcherDecisions, h1]
  · have h1 : a > h := hgt
    cases save <;>
      simp [printPitcherDecisions, h1, Int.ne_of_gt hgt]

/-- Witness for C10: an away 2-1 final with no save pitcher spreads the
winner and loser lines by the fixed offset; a tied 1-1 record draws
nothing. -/
theorem claim_C10_tied_final_witness :
    (printPitcherDecisions 2 1 "Cole" "Eflin" none "5-2" "3-4" "").lineA.map Prod.snd =
      some 7
    ∧ printPitcherDecisions 1 1 "Cole" "Eflin" none "5-2" "3-4" "" =
      { lineA := none, lineB := none, lineC := none } := by
  have h21 := claim_C10_tied_final 2 1 "Cole" "Eflin" none "5-2" "3-4" ""
  have h11 := claim_C10_tied_final 1 1 "Cole" "Eflin" none "5-2" "3-4" ""
  exact ⟨(h21.2.2.2.2 rfl (by decide)).1, h11.1 rfl⟩

end OnDeck
